import Mathlib

/-!
Verification of the table-quirks override layer (`schemareader/tableFilters.go`)
of the inter-server-sync tool.  The Go source is shallowly embedded below:
the `Table` metadata model, the override entry point `applyTableFilters`,
and the two row-modification callbacks it installs (for `rhnerrata` and
`susesaltpillar`), including an executable model of the regexp
`https://[^/]+/os-images/` replace-all used by the pillar callback.
Go maps are modelled as association lists with replace-or-append insertion;
a Go runtime panic (failed type assertion) is modelled as `Option.none`.
-/

namespace SchemaReader

/-- A dynamic SQL column value (Go `interface\x7b\x7d` holding one of the
schema-known representations: text, binary blob, integer, boolean, NULL).
A binary blob is modelled by its character content. -/
inductive DynValue where
  | vString (s : String)
  | vBytes (b : String)
  | vInt (n : Int)
  | vBool (b : Bool)
  | vNull
deriving DecidableEq, Repr

/-- Modelled from the spec: `sqlUtil.RowDataStructure` is not under `src/`;
per the spec a row is an ordered sequence of column-name/value pairs and
additionally exposes, per column, the column's schema-declared
default/initial value. -/
structure RowDataStructure where
  ColumnName : String
  Value : DynValue
  InitialValue : DynValue
deriving DecidableEq, Repr

/-- Modelled from the spec: accessor for the schema-declared initial value
of a column (Go `RowDataStructure.GetInitialValue`). -/
def RowDataStructure.GetInitialValue (r : RowDataStructure) : DynValue :=
  r.InitialValue

/-- Identifier naming which concrete row-modification callback is installed
on a table (the registry installs exactly two distinct closures). -/
inductive RowModCallbackId where
  | rhnerrataCb
  | susesaltpillarCb
deriving DecidableEq, Repr

structure UniqueIndex where
  Name : String
  Columns : List String
deriving DecidableEq, Repr

structure Reference where
  TableName : String
  ColumnMapping : List (String × String)
deriving DecidableEq, Repr

structure Table where
  Name : String
  PKSequence : String
  UniqueIndexes : List (String × UniqueIndex)
  MainUniqueIndexName : String
  UnexportColumns : List String
  References : List Reference
  RowModCallback : Option RowModCallbackId
deriving DecidableEq, Repr

/-- Go map assignment `m[k] = v`: replace the entry under `k` in place if it
exists, otherwise append it. -/
def mapInsert {α : Type} (k : String) (v : α) : List (String × α) → List (String × α)
  | [] => [(k, v)]
  | (k1, v1) :: rest => if k1 = k then (k, v) :: rest else (k1, v1) :: mapInsert k v rest

/-- Go map lookup `m[k]` (presence-tracking form). -/
def mapLookup {α : Type} (k : String) : List (String × α) → Option α
  | [] => none
  | (k1, v1) :: rest => if k1 = k then some v1 else mapLookup k rest

/-- Go map indexing `m[k]` for `map[string]UniqueIndex`: a missing key yields
the zero value `UniqueIndex\x7b\x7d`. -/
def lookupIndex (k : String) (m : List (String × UniqueIndex)) : UniqueIndex :=
  (mapLookup k m).getD { Name := "", Columns := [] }

def VirtualIndexName : String := "virtual_main_unique_index"

/-- The characters of the literal `https://` heading the regexp. -/
def httpsChars : List Char := "https://".data

/-- The characters of the literal `/os-images/` ending the regexp. -/
def osImagesChars : List Char := "/os-images/".data

/-- The replacement text `https://\x7bSERVER_FQDN\x7d/os-images/`. -/
def fqdnRepl : List Char := "https://\x7bSERVER_FQDN\x7d/os-images/".data

/-- Go `strings.HasPrefix` on character lists: does the first list start with
the second? -/
def hasPfx : List Char → List Char → Bool
  | _, [] => true
  | [], _ :: _ => false
  | b :: bs, a :: as => b == a && hasPfx bs as

/-- Strip an expected literal from the head of the input, returning the rest. -/
def stripPfx : List Char → List Char → Option (List Char)
  | [], l => some l
  | _ :: _, [] => none
  | a :: as, b :: bs => if a = b then stripPfx as bs else none

/-- Attempt to match the regexp `https://[^/]+/os-images/` at the head of the
input; on success return the input after the match.  The match is forced:
after `https://` the host part `[^/]+` is the maximal nonempty run of
non-slash characters, and the literal `/os-images/` must follow it. -/
def matchTail (l : List Char) : Option (List Char) :=
  match stripPfx httpsChars l with
  | none => none
  | some r =>
    let host := r.takeWhile (fun c => c != '/')
    let tail := r.dropWhile (fun c => c != '/')
    if host = [] then none
    else
      match stripPfx osImagesChars tail with
      | none => none
      | some rest => some rest

/-- Go `regexp.ReplaceAll` for the pattern `https://[^/]+/os-images/` with the
literal replacement `https://\x7bSERVER_FQDN\x7d/os-images/`: scan left to
right, replace each leftmost non-overlapping match, and continue after the
replaced match (replaced text is not rescanned).  The recursion is driven by
a fuel counter so that it is structural: every step consumes at least one
input character, so fuel equal to the input length (as supplied by
`replaceAllList`) always suffices and the `0` case is never reached then. -/
def replaceAllGo : Nat → List Char → List Char
  | _, [] => []
  | 0, l => l
  | fuel + 1, c :: cs =>
    match matchTail (c :: cs) with
    | some rest => fqdnRepl ++ replaceAllGo fuel rest
    | none => c :: replaceAllGo fuel cs

/-- Replace every leftmost non-overlapping occurrence of the
`https://[^/]+/os-images/` pattern in the input. -/
def replaceAllList (l : List Char) : List Char :=
  replaceAllGo l.length l

/-- String-level wrapper of `replaceAllList`. -/
def replaceAllOsImages (s : String) : String :=
  ⟨replaceAllList s.data⟩

/-- A blob decomposed into alternating free segments and pattern occurrences:
`chunksBlob [(s1, h1), ..., (sn, hn)] t` is
`s1 ++ https://h1/os-images/ ++ ... ++ sn ++ https://hn/os-images/ ++ t`. -/
def chunksBlob : List (String × String) → String → String
  | [], t => t
  | (s, h) :: rest, t => s ++ "https://" ++ h ++ "/os-images/" ++ chunksBlob rest t

/-- The same decomposition with every occurrence's host replaced by the
`\x7bSERVER_FQDN\x7d` placeholder. -/
def chunksRepl : List (String × String) → String → String
  | [], t => t
  | (s, _) :: rest, t => s ++ "https://\x7bSERVER_FQDN\x7d/os-images/" ++ chunksRepl rest t

/-- No occurrence of the pattern starts inside `s` when `s` is followed by the
text `t`. -/
def noMatchFromB (s t : List Char) : Bool :=
  (List.range s.length).all fun n => (matchTail (s.drop n ++ t)).isNone

/-- Side conditions making `chunksBlob ps t` an exact inventory of the
pattern occurrences in the blob: no occurrence starts inside a free segment
(in context) or inside the trailing segment, and every host is nonempty and
slash-free. -/
def segsOkB : List (String × String) → String → Bool
  | [], t => noMatchFromB t.data []
  | (s, h) :: rest, t =>
    noMatchFromB s.data (httpsChars ++ (h.data ++ (osImagesChars ++ (chunksBlob rest t).data))) &&
    !h.data.isEmpty && h.data.all (fun c => c != '/') && segsOkB rest t

/-- The `rhnerrata` row-modification callback: every column named
`severity_id` gets its value reset to the column's declared initial value;
all other columns pass through. -/
def rhnerrataRowMod (value : List RowDataStructure) (_t : Table) : List RowDataStructure :=
  value.map fun row =>
    if row.ColumnName = "severity_id" then { row with Value := row.GetInitialValue } else row

/-- The scanning loop of the `susesaltpillar` callback: walk the row,
flagging whether some `category` column's string value starts with `Image`
and remembering the index of the last `pillar` column (the Go code
initializes that index to `0`).  `none` models the Go panic raised when a
`category` column's value is not a string. -/
def scanPillar : List RowDataStructure → Nat → Bool → Nat → Option (Bool × Nat)
  | [], _, isImagePillar, pillarColumn => some (isImagePillar, pillarColumn)
  | column :: rest, i, isImagePillar, pillarColumn =>
    if column.ColumnName = "category" then
      match column.Value with
      | .vString s =>
        if hasPfx s.data "Image".data then scanPillar rest (i + 1) true pillarColumn
        else scanPillar rest (i + 1) isImagePillar pillarColumn
      | _ => none
    else if column.ColumnName = "pillar" then
      scanPillar rest (i + 1) isImagePillar i
    else
      scanPillar rest (i + 1) isImagePillar pillarColumn

/-- The `susesaltpillar` row-modification callback.  When some `category`
column's string value starts with `Image`, the column at the remembered
pillar index gets its (binary) value rewritten by the `os-images` URL
replacement; otherwise the row passes through.  `none` models a Go panic
(failed type assertion, or out-of-range index). -/
def susesaltpillarRowMod (value : List RowDataStructure) (_t : Table) :
    Option (List RowDataStructure) :=
  match scanPillar value 0 false 0 with
  | none => none
  | some (isImagePillar, pillarColumn) =>
    if isImagePillar then
      match value[pillarColumn]? with
      | none => none
      | some column =>
        match column.Value with
        | .vBytes b =>
          some (value.set pillarColumn { column with Value := .vBytes (replaceAllOsImages b) })
        | _ => none
    else some value

/-- The `suseimageprofile` reference rewrite: every edge to `rhnregtoken` is
replaced by an edge to `rhnactivationkey` mapping `token_id` to
`reg_token_id`; all other edges pass through in order. -/
def retargetRegToken (references : List Reference) : List Reference :=
  references.map fun r =>
    if r.TableName = "rhnregtoken" then
      { TableName := "rhnactivationkey", ColumnMapping := [("token_id", "reg_token_id")] }
    else r

/-- The override registry and entry point (Go `applyTableFilters`): a switch
on the table name applying that table's hand-authored corrections; any name
not special-cased passes through unchanged. -/
def applyTableFilters (table : Table) : Table :=
  if table.Name = "rhnchecksumtype" then
    { table with PKSequence := "rhn_checksum_id_seq" }
  else if table.Name = "rhnchecksum" then
    { table with PKSequence := "rhnchecksum_seq" }
  else if table.Name = "rhnpackagearch" then
    { table with PKSequence := "rhn_package_arch_id_seq" }
  else if table.Name = "rhnchannelarch" then
    { table with PKSequence := "rhn_channel_arch_id_seq" }
  else if table.Name = "rhnpackagename" then
    { table with PKSequence := "RHN_PKG_NAME_SEQ" }
  else if table.Name = "rhnpackagenevra" then
    { table with PKSequence := "rhn_pkgnevra_id_seq" }
  else if table.Name = "rhnpackagesource" then
    { table with PKSequence := "rhn_package_source_id_seq" }
  else if table.Name = "rhnpackagekey" then
    { table with PKSequence := "rhn_pkey_id_seq" }
  else if table.Name = "rhnpackageextratag" then
    { table with
      UniqueIndexes := mapInsert VirtualIndexName
        { Name := VirtualIndexName, Columns := ["package_id", "key_id"] } table.UniqueIndexes,
      MainUniqueIndexName := VirtualIndexName }
  else if table.Name = "rhnpackageevr" then
    let ui1 := mapInsert "rhn_pe_v_r_e_uq"
      { Name := "rhn_pe_v_r_e_uq",
        Columns := (lookupIndex "rhn_pe_v_r_e_uq" table.UniqueIndexes).Columns ++ ["type"] }
      table.UniqueIndexes
    let ui2 := mapInsert "rhn_pe_v_r_uq"
      { Name := "rhn_pe_v_r_uq",
        Columns := (lookupIndex "rhn_pe_v_r_uq" ui1).Columns ++ ["type"] }
      ui1
    { table with
      PKSequence := "rhn_pkg_evr_seq",
      UnexportColumns := ["type"],
      UniqueIndexes := ui2 }
  else if table.Name = "rhnpackage" then
    { table with
      PKSequence := "RHN_PACKAGE_ID_SEQ",
      UniqueIndexes := mapInsert VirtualIndexName
        { Name := VirtualIndexName,
          Columns := ["name_id", "evr_id", "package_arch_id", "checksum_id", "org_id"] }
        table.UniqueIndexes,
      MainUniqueIndexName := VirtualIndexName }
  else if table.Name = "rhnpackagechangelogdata" then
    { table with
      PKSequence := "rhn_pkg_cld_id_seq",
      UniqueIndexes := mapInsert VirtualIndexName
        { Name := VirtualIndexName, Columns := ["name", "text", "time"] } table.UniqueIndexes,
      MainUniqueIndexName := VirtualIndexName }
  else if table.Name = "rhnpackagechangelogrec" then
    { table with PKSequence := "rhn_pkg_cl_id_seq" }
  else if table.Name = "rhnpackagecapability" then
    { table with
      PKSequence := "RHN_PKG_CAPABILITY_ID_SEQ",
      UniqueIndexes := mapInsert VirtualIndexName
        { Name := VirtualIndexName, Columns := ["name", "version"] } table.UniqueIndexes,
      MainUniqueIndexName := VirtualIndexName }
  else if table.Name = "rhnconfigfiletype" then
    { table with
      UniqueIndexes := mapInsert VirtualIndexName
        { Name := VirtualIndexName, Columns := ["label"] } table.UniqueIndexes,
      MainUniqueIndexName := VirtualIndexName }
  else if table.Name = "rhnconfigfile" then
    { table with UnexportColumns := ["latest_config_revision_id"] }
  else if table.Name = "rhnconfigcontent" then
    { table with
      UniqueIndexes := mapInsert VirtualIndexName
        { Name := VirtualIndexName,
          Columns := ["contents", "file_size", "checksum_id", "is_binary",
                      "delim_start", "delim_end", "created"] }
        table.UniqueIndexes,
      MainUniqueIndexName := VirtualIndexName }
  else if table.Name = "suseimageinfo" then
    { table with
      UnexportColumns := ["build_action_id", "inspect_action_id", "build_server_id", "log"],
      UniqueIndexes := mapInsert VirtualIndexName
        { Name := VirtualIndexName,
          Columns := ["name", "version", "image_type", "image_arch_id", "org_id",
                      "curr_revision_num"] }
        table.UniqueIndexes,
      MainUniqueIndexName := VirtualIndexName }
  else if table.Name = "suseimageinfochannel" then
    { table with
      UniqueIndexes := mapInsert VirtualIndexName
        { Name := VirtualIndexName, Columns := ["channel_id", "image_info_id"] }
        table.UniqueIndexes,
      MainUniqueIndexName := VirtualIndexName }
  else if table.Name = "suseimageprofile" then
    { table with
      PKSequence := "suse_imgprof_prid_seq",
      References := retargetRegToken table.References }
  else if table.Name = "susekiwiprofile" then
    { table with
      UniqueIndexes := mapInsert VirtualIndexName
        { Name := VirtualIndexName, Columns := ["profile_id"] } table.UniqueIndexes,
      MainUniqueIndexName := VirtualIndexName }
  else if table.Name = "susedockerfileprofile" then
    { table with
      UniqueIndexes := mapInsert VirtualIndexName
        { Name := VirtualIndexName, Columns := ["profile_id", "path"] } table.UniqueIndexes,
      MainUniqueIndexName := VirtualIndexName }
  else if table.Name = "rhnerrata" then
    { table with
      MainUniqueIndexName := "rhn_errata_adv_org_uq",
      RowModCallback := some .rhnerrataCb }
  else if table.Name = "susesaltpillar" then
    { table with
      RowModCallback := some .susesaltpillarCb,
      UniqueIndexes := mapInsert VirtualIndexName
        { Name := VirtualIndexName, Columns := ["server_id", "group_id", "org_id", "category"] }
        table.UniqueIndexes,
      MainUniqueIndexName := VirtualIndexName }
  else if table.Name = "suseimagefile" then
    { table with
      PKSequence := "suse_image_file_id_seq",
      UniqueIndexes := mapInsert VirtualIndexName
        { Name := VirtualIndexName, Columns := ["image_info_id", "file"] } table.UniqueIndexes,
      MainUniqueIndexName := VirtualIndexName }
  else table

/-- The twelve table names whose registry entries inject a virtual unique
index under the reserved name. -/
def virtualIndexTables : List String :=
  ["rhnpackageextratag", "rhnpackage", "rhnpackagechangelogdata", "rhnpackagecapability",
   "rhnconfigfiletype", "rhnconfigcontent", "suseimageinfo", "suseimageinfochannel",
   "susekiwiprofile", "susedockerfileprofile", "susesaltpillar", "suseimagefile"]

/-- The hand-picked virtual-index column list for each table of
`virtualIndexTables`. -/
def virtualIndexColumnsOf (name : String) : List String :=
  if name = "rhnpackageextratag" then ["package_id", "key_id"]
  else if name = "rhnpackage" then ["name_id", "evr_id", "package_arch_id", "checksum_id", "org_id"]
  else if name = "rhnpackagechangelogdata" then ["name", "text", "time"]
  else if name = "rhnpackagecapability" then ["name", "version"]
  else if name = "rhnconfigfiletype" then ["label"]
  else if name = "rhnconfigcontent" then
    ["contents", "file_size", "checksum_id", "is_binary", "delim_start", "delim_end", "created"]
  else if name = "suseimageinfo" then
    ["name", "version", "image_type", "image_arch_id", "org_id", "curr_revision_num"]
  else if name = "suseimageinfochannel" then ["channel_id", "image_info_id"]
  else if name = "susekiwiprofile" then ["profile_id"]
  else if name = "susedockerfileprofile" then ["profile_id", "path"]
  else if name = "susesaltpillar" then ["server_id", "group_id", "org_id", "category"]
  else if name = "suseimagefile" then ["image_info_id", "file"]
  else []

/-- All table names special-cased by the registry switch. -/
def registryTables : List String :=
  ["rhnchecksumtype", "rhnchecksum", "rhnpackagearch", "rhnchannelarch", "rhnpackagename",
   "rhnpackagenevra", "rhnpackagesource", "rhnpackagekey", "rhnpackageextratag",
   "rhnpackageevr", "rhnpackage", "rhnpackagechangelogdata", "rhnpackagechangelogrec",
   "rhnpackagecapability", "rhnconfigfiletype", "rhnconfigfile", "rhnconfigcontent",
   "suseimageinfo", "suseimageinfochannel", "suseimageprofile", "susekiwiprofile",
   "susedockerfileprofile", "rhnerrata", "susesaltpillar", "suseimagefile"]

/-- The registry names other than `rhnpackageevr` (the one entry that appends
to existing unique-index column lists instead of re-setting them). -/
def registryTablesIdem : List String :=
  ["rhnchecksumtype", "rhnchecksum", "rhnpackagearch", "rhnchannelarch", "rhnpackagename",
   "rhnpackagenevra", "rhnpackagesource", "rhnpackagekey", "rhnpackageextratag",
   "rhnpackage", "rhnpackagechangelogdata", "rhnpackagechangelogrec",
   "rhnpackagecapability", "rhnconfigfiletype", "rhnconfigfile", "rhnconfigcontent",
   "suseimageinfo", "suseimageinfochannel", "suseimageprofile", "susekiwiprofile",
   "susedockerfileprofile", "rhnerrata", "susesaltpillar", "suseimagefile"]

/-- A blank table used to build concrete test tables. -/
def table0 : Table :=
  { Name := "", PKSequence := "", UniqueIndexes := [], MainUniqueIndexName := "",
    UnexportColumns := [], References := [], RowModCallback := none }

/-- The replacement reference installed for `suseimageprofile`: an edge to
`rhnactivationkey` mapping `token_id` to `reg_token_id`. -/
def activationKeyRef : Reference :=
  { TableName := "rhnactivationkey", ColumnMapping := [("token_id", "reg_token_id")] }

/-- A concrete `suseimageprofile` table whose references already contain an
edge identical to the replacement edge, next to one `rhnregtoken` edge. -/
def imageProfileTable : Table :=
  { table0 with
      Name := "suseimageprofile",
      References := [activationKeyRef,
        { TableName := "rhnregtoken", ColumnMapping := [("token_id", "id")] }] }

/-- A concrete `rhnerrata` table used as a test fixture. -/
def errataTable : Table :=
  { table0 with
      Name := "rhnerrata",
      UniqueIndexes := [("rhn_errata_adv_org_uq",
        { Name := "rhn_errata_adv_org_uq", Columns := ["advisory", "org_id"] })] }

theorem mapLookup_mapInsert_self {α : Type} (k : String) (v : α) (m : List (String × α)) :
    mapLookup k (mapInsert k v m) = some v := by
  induction m with
  | nil => simp [mapInsert, mapLookup]
  | cons p rest ih =>
    obtain ⟨k1, v1⟩ := p
    by_cases hk : k1 = k
    · simp [mapInsert, mapLookup, hk]
    · simp [mapInsert, mapLookup, hk, ih]

theorem mapInsert_idem {α : Type} (k : String) (v : α) (m : List (String × α)) :
    mapInsert k v (mapInsert k v m) = mapInsert k v m := by
  induction m with
  | nil => simp [mapInsert]
  | cons p rest ih =>
    obtain ⟨k1, v1⟩ := p
    by_cases hk : k1 = k
    · simp [mapInsert, hk]
    · simp [mapInsert, hk, ih]

theorem retargetRegToken_idem (l : List Reference) :
    retargetRegToken (retargetRegToken l) = retargetRegToken l := by
  induction l with
  | nil => rfl
  | cons r rest ih =>
    by_cases hr : r.TableName = "rhnregtoken"
    · simp only [retargetRegToken, List.map_cons, List.map_map] at ih ⊢
      simp [hr, ih]
    · simp only [retargetRegToken, List.map_cons, List.map_map] at ih ⊢
      simp [hr, ih]

/-- C1: for every table whose registry entry injects a virtual unique index,
`applyTableFilters` sets `MainUniqueIndexName` to the reserved name
`virtual_main_unique_index`, and the `UniqueIndexes` map holds, under that
key, an index with that same name and the entry's hand-picked column list. -/
theorem c1_virtual_index_installed (t : Table) (h : t.Name ∈ virtualIndexTables) :
    (applyTableFilters t).MainUniqueIndexName = VirtualIndexName ∧
    mapLookup VirtualIndexName (applyTableFilters t).UniqueIndexes =
      some { Name := VirtualIndexName, Columns := virtualIndexColumnsOf t.Name } := by
  simp only [virtualIndexTables, List.mem_cons, List.not_mem_nil, or_false] at h
  rcases h with h | h | h | h | h | h | h | h | h | h | h | h <;>
    simp [applyTableFilters, virtualIndexColumnsOf, h, mapLookup_mapInsert_self]

/-- Witness for C1 at the concrete table `rhnpackage`. -/
theorem c1_witness :
    (applyTableFilters { table0 with Name := "rhnpackage" }).MainUniqueIndexName =
        VirtualIndexName ∧
    mapLookup VirtualIndexName
        (applyTableFilters { table0 with Name := "rhnpackage" }).UniqueIndexes =
      some { Name := VirtualIndexName,
             Columns := virtualIndexColumnsOf ({ table0 with Name := "rhnpackage" } : Table).Name } :=
  c1_virtual_index_installed { table0 with Name := "rhnpackage" } (by decide)

/-- C7: a table whose name is not special-cased by the registry switch passes
through `applyTableFilters` unchanged in every field. -/
theorem c7_pass_through (t : Table) (h : t.Name ∉ registryTables) :
    applyTableFilters t = t := by
  simp only [registryTables, List.mem_cons, List.not_mem_nil, or_false, not_or] at h
  obtain ⟨h1, h2, h3, h4, h5, h6, h7, h8, h9, h10, h11, h12, h13, h14, h15, h16, h17,
    h18, h19, h20, h21, h22, h23, h24, h25⟩ := h
  simp [applyTableFilters, h1, h2, h3, h4, h5, h6, h7, h8, h9, h10, h11, h12, h13, h14,
    h15, h16, h17, h18, h19, h20, h21, h22, h23, h24, h25]

/-- Witness for C7 at a concrete table absent from the registry. -/
theorem c7_witness :
    applyTableFilters { table0 with Name := "rhnchannel" } = { table0 with Name := "rhnchannel" } :=
  c7_pass_through { table0 with Name := "rhnchannel" } (by decide)

/-- C8: for `rhnerrata`, `applyTableFilters` pins `MainUniqueIndexName` to the
fixed literal `rhn_errata_adv_org_uq` and leaves the `UniqueIndexes` map
identical to the input's (no virtual index is added). -/
theorem c8_rhnerrata_pins_real_index (t : Table) (h : t.Name = "rhnerrata") :
    (applyTableFilters t).MainUniqueIndexName = "rhn_errata_adv_org_uq" ∧
    (applyTableFilters t).UniqueIndexes = t.UniqueIndexes := by
  simp [applyTableFilters, h]

/-- Witness for C8 at a concrete `rhnerrata` table with a nonempty index map. -/
theorem c8_witness :
    (applyTableFilters errataTable).MainUniqueIndexName = "rhn_errata_adv_org_uq" ∧
    (applyTableFilters errataTable).UniqueIndexes = errataTable.UniqueIndexes :=
  c8_rhnerrata_pins_real_index errataTable (by decide)

/-- C2 counterexample: `applyTableFilters` is not idempotent on the
`rhnpackageevr` registry entry — the second application appends `type` to
the two unique-index column lists again. -/
theorem c2_counterexample :
    applyTableFilters (applyTableFilters { table0 with Name := "rhnpackageevr" }) ≠
      applyTableFilters { table0 with Name := "rhnpackageevr" } := by
  decide

/-- C2 (amended): `applyTableFilters` is idempotent for every registry entry
except `rhnpackageevr` (whose entry appends `type` to the column lists of
the existing unique indexes `rhn_pe_v_r_e_uq` and `rhn_pe_v_r_uq` on every
application instead of re-setting them). -/
theorem c2_idem_except_rhnpackageevr (t : Table) (h : t.Name ∈ registryTablesIdem) :
    applyTableFilters (applyTableFilters t) = applyTableFilters t := by
  simp only [registryTablesIdem, List.mem_cons, List.not_mem_nil, or_false] at h
  rcases h with h | h | h | h | h | h | h | h | h | h | h | h | h | h | h | h | h | h |
    h | h | h | h | h | h <;>
    simp [applyTableFilters, h, mapInsert_idem, retargetRegToken_idem]

/-- Witness for the amended C2 at the concrete table `susesaltpillar`. -/
theorem c2_witness :
    applyTableFilters (applyTableFilters { table0 with Name := "susesaltpillar" }) =
      applyTableFilters { table0 with Name := "susesaltpillar" } :=
  c2_idem_except_rhnpackageevr { table0 with Name := "susesaltpillar" } (by decide)

/-- C5: the `rhnerrata` callback resets every `severity_id` column to its
declared initial value and returns every other column unchanged, preserving
the row's length and column order. -/
theorem c5_errata_redaction (value : List RowDataStructure) (t : Table) (i : Nat)
    (h : i < value.length) :
    (rhnerrataRowMod value t).length = value.length ∧
    (value[i].ColumnName = "severity_id" →
      (rhnerrataRowMod value t)[i]? =
        some { value[i] with Value := value[i].GetInitialValue }) ∧
    (value[i].ColumnName ≠ "severity_id" →
      (rhnerrataRowMod value t)[i]? = some value[i]) := by
  refine ⟨by simp [rhnerrataRowMod], ?_, ?_⟩
  · intro hn
    simp [rhnerrataRowMod, List.getElem?_eq_getElem h, hn]
  · intro hn
    simp [rhnerrataRowMod, List.getElem?_eq_getElem h, hn]

/-- Witness for C5: a concrete `severity_id` value `3` is replaced by the
column's declared initial value. -/
theorem c5_witness :
    (rhnerrataRowMod [⟨"severity_id", .vInt 3, .vNull⟩] table0)[0]? =
      some ⟨"severity_id", .vNull, .vNull⟩ :=
  (c5_errata_redaction [⟨"severity_id", .vInt 3, .vNull⟩] table0 0 (by decide)).2.1 (by decide)

theorem rowFields_ext (r s : RowDataStructure) (h1 : r.ColumnName = s.ColumnName)
    (h2 : r.Value = s.Value) (h3 : r.InitialValue = s.InitialValue) : r = s := by
  cases r
  cases s
  simp_all

/-- C9: both installed callbacks are deterministic — their output depends only
on the rows' column names, values, and declared initial values (and not on
the `Table` argument, wall-clock time, or any external state, none of which
occur in the callback bodies). -/
theorem c9_callbacks_deterministic (v w : List RowDataStructure) (t1 t2 : Table)
    (hlen : v.length = w.length)
    (hfields : ∀ i (h1 : i < v.length) (h2 : i < w.length),
      v[i].ColumnName = w[i].ColumnName ∧ v[i].Value = w[i].Value ∧
      v[i].InitialValue = w[i].InitialValue) :
    rhnerrataRowMod v t1 = rhnerrataRowMod w t2 ∧
    susesaltpillarRowMod v t1 = susesaltpillarRowMod w t2 := by
  have hvw : v = w := by
    apply List.ext_getElem hlen
    intro i h1 h2
    obtain ⟨a, b, c⟩ := hfields i h1 h2
    exact rowFields_ext _ _ a b c
  subst hvw
  exact ⟨rfl, rfl⟩

/-- Witness for C9 at a concrete one-column row and two different tables. -/
theorem c9_witness :
    rhnerrataRowMod [⟨"severity_id", .vInt 3, .vNull⟩] table0 =
      rhnerrataRowMod [⟨"severity_id", .vInt 3, .vNull⟩] errataTable ∧
    susesaltpillarRowMod [⟨"severity_id", .vInt 3, .vNull⟩] table0 =
      susesaltpillarRowMod [⟨"severity_id", .vInt 3, .vNull⟩] errataTable :=
  c9_callbacks_deterministic _ _ table0 errataTable rfl
    (by
      intro i h1 h2
      cases i with
      | zero => exact ⟨rfl, rfl, rfl⟩
      | succ n => simp at h1)

/-- C3 (code bug): the `rhnerrata` callback does fail closed — a row with no
`severity_id` column is returned unchanged — but the `susesaltpillar`
callback does not: on a row whose `category` value starts with `Image` and
which has no `pillar` column at all, the zero-initialized pillar index makes
it rewrite the URLs inside the unrelated first column instead of leaving the
row unmodified. -/
theorem c3_salt_pillar_not_fail_closed :
    rhnerrataRowMod [⟨"advisory", .vString "a", .vNull⟩] table0 =
      [⟨"advisory", .vString "a", .vNull⟩] ∧
    susesaltpillarRowMod
        [⟨"other", .vBytes "https://a/os-images/x", .vNull⟩,
         ⟨"category", .vString "Image-x", .vNull⟩] table0 =
      some [⟨"other", .vBytes "https://\x7bSERVER_FQDN\x7d/os-images/x", .vNull⟩,
            ⟨"category", .vString "Image-x", .vNull⟩] ∧
    susesaltpillarRowMod
        [⟨"other", .vBytes "https://a/os-images/x", .vNull⟩,
         ⟨"category", .vString "Image-x", .vNull⟩] table0 ≠
      some [⟨"other", .vBytes "https://a/os-images/x", .vNull⟩,
            ⟨"category", .vString "Image-x", .vNull⟩] := by
  refine ⟨by decide, by decide, by decide⟩

/-- C10: the `susesaltpillar` callback is total only under a typing
precondition.  A `category` column holding a non-string value makes it
panic (`none`); with an `Image` category, a selected pillar column holding a
non-binary value makes it panic; and when no `category` value starts with
`Image` the row is returned unchanged even if the pillar value is not
binary. -/
theorem c10_typing_precondition :
    susesaltpillarRowMod [⟨"category", .vInt 7, .vNull⟩] table0 = none ∧
    susesaltpillarRowMod
        [⟨"pillar", .vString "x", .vNull⟩, ⟨"category", .vString "ImageA", .vNull⟩]
        table0 = none ∧
    susesaltpillarRowMod
        [⟨"category", .vString "Container", .vNull⟩, ⟨"pillar", .vInt 0, .vNull⟩]
        table0 =
      some [⟨"category", .vString "Container", .vNull⟩, ⟨"pillar", .vInt 0, .vNull⟩] := by
  refine ⟨by decide, by decide, by decide⟩

theorem retargetRegToken_of_no_token (l : List Reference)
    (h : ∀ x ∈ l, x.TableName ≠ "rhnregtoken") : retargetRegToken l = l := by
  induction l with
  | nil => rfl
  | cons r rest ih =>
    have hr := h r (by simp)
    have hrest : ∀ x ∈ rest, x.TableName ≠ "rhnregtoken" := fun x hx => h x (by simp [hx])
    simp [retargetRegToken, hr] at ih ⊢
    exact ih hrest

/-- C6 counterexample: with an input `suseimageprofile` reference list holding
exactly one `rhnregtoken` edge but also an edge already identical to the
replacement edge, the output holds two (not exactly one) edges to
`rhnactivationkey` with the documented column mapping. -/
theorem c6_counterexample :
    imageProfileTable.References.countP (fun x => x.TableName == "rhnregtoken") = 1 ∧
    (applyTableFilters imageProfileTable).References.count activationKeyRef = 2 := by
  refine ⟨by decide, by decide⟩

/-- C6 (amended): for a `suseimageprofile` table whose references hold exactly
one `rhnregtoken` edge and no other edge equal to the replacement edge, the
output references are the input with that edge replaced in place by the
`rhnactivationkey` edge mapping `token_id` to `reg_token_id`: no
`rhnregtoken` edge remains, exactly one replacement edge is present, and all
other edges pass through unchanged in their original relative order. -/
theorem c6_retarget_regtoken (t : Table) (l1 l2 : List Reference) (r : Reference)
    (hname : t.Name = "suseimageprofile")
    (hrefs : t.References = l1 ++ r :: l2)
    (hr : r.TableName = "rhnregtoken")
    (hothers : ∀ x ∈ l1 ++ l2, x.TableName ≠ "rhnregtoken" ∧ x ≠ activationKeyRef) :
    (applyTableFilters t).References = l1 ++ activationKeyRef :: l2 ∧
    (applyTableFilters t).References.countP (fun x => x.TableName == "rhnregtoken") = 0 ∧
    (applyTableFilters t).References.count activationKeyRef = 1 := by
  have h1 : ∀ x ∈ l1, x.TableName ≠ "rhnregtoken" := fun x hx => (hothers x (by simp [hx])).1
  have h2 : ∀ x ∈ l2, x.TableName ≠ "rhnregtoken" := fun x hx => (hothers x (by simp [hx])).1
  have hout : (applyTableFilters t).References = l1 ++ activationKeyRef :: l2 := by
    simp only [applyTableFilters, hname]
    norm_num
    rw [hrefs]
    simp only [retargetRegToken, List.map_append, List.map_cons]
    rw [← retargetRegToken, ← retargetRegToken, retargetRegToken_of_no_token l1 h1,
      retargetRegToken_of_no_token l2 h2]
    simp [hr, activationKeyRef]
  refine ⟨hout, ?_, ?_⟩
  · rw [hout]
    simp only [List.countP_append, List.countP_cons]
    have e1 : l1.countP (fun x => x.TableName == "rhnregtoken") = 0 := by
      rw [List.countP_eq_zero]
      intro a ha
      simpa using h1 a ha
    have e2 : l2.countP (fun x => x.TableName == "rhnregtoken") = 0 := by
      rw [List.countP_eq_zero]
      intro a ha
      simpa using h2 a ha
    simp [e1, e2, activationKeyRef]
  · rw [hout]
    have m1 : activationKeyRef ∉ l1 := by
      intro hmem
      exact (hothers _ (by simp [hmem])).2 rfl
    have m2 : activationKeyRef ∉ l2 := by
      intro hmem
      exact (hothers _ (by simp [hmem])).2 rfl
    simp [List.count_append, List.count_cons, List.count_eq_zero.mpr m1,
      List.count_eq_zero.mpr m2]

/-- Witness for the amended C6 at a concrete table with one extra edge on each
side of the `rhnregtoken` edge. -/
theorem c6_witness :
    (applyTableFilters { table0 with
        Name := "suseimageprofile",
        References := [{ TableName := "rhnchannel", ColumnMapping := [("channel_id", "id")] },
          { TableName := "rhnregtoken", ColumnMapping := [("token_id", "id")] },
          { TableName := "suseimagestore", ColumnMapping := [("store_id", "id")] }] }).References =
      [{ TableName := "rhnchannel", ColumnMapping := [("channel_id", "id")] }] ++
        activationKeyRef ::
          [{ TableName := "suseimagestore", ColumnMapping := [("store_id", "id")] }] ∧
    (applyTableFilters { table0 with
        Name := "suseimageprofile",
        References := [{ TableName := "rhnchannel", ColumnMapping := [("channel_id", "id")] },
          { TableName := "rhnregtoken", ColumnMapping := [("token_id", "id")] },
          { TableName := "suseimagestore", ColumnMapping := [("store_id", "id")] }] }).References.countP
      (fun x => x.TableName == "rhnregtoken") = 0 ∧
    (applyTableFilters { table0 with
        Name := "suseimageprofile",
        References := [{ TableName := "rhnchannel", ColumnMapping := [("channel_id", "id")] },
          { TableName := "rhnregtoken", ColumnMapping := [("token_id", "id")] },
          { TableName := "suseimagestore", ColumnMapping := [("store_id", "id")] }] }).References.count
      activationKeyRef = 1 :=
  c6_retarget_regtoken _
    [{ TableName := "rhnchannel", ColumnMapping := [("channel_id", "id")] }]
    [{ TableName := "suseimagestore", ColumnMapping := [("store_id", "id")] }]
    { TableName := "rhnregtoken", ColumnMapping := [("token_id", "id")] }
    rfl rfl rfl
    (by
      intro x hx
      simp only [List.mem_append, List.mem_singleton] at hx
      rcases hx with hx | hx <;> subst hx <;> exact ⟨by decide, by decide⟩)

theorem stripPfx_length (p : List Char) : ∀ l r, stripPfx p l = some r →
    l.length = p.length + r.length := by
  induction p with
  | nil =>
    intro l r hh
    simp only [stripPfx, Option.some.injEq] at hh
    simp [hh]
  | cons a as ih =>
    intro l r hh
    cases l with
    | nil => simp [stripPfx] at hh
    | cons b bs =>
      simp only [stripPfx] at hh
      split at hh
      · have := ih bs r hh
        simp [this]
        omega
      · exact absurd hh (by simp)

theorem stripPfx_append_self (p : List Char) : ∀ l, stripPfx p (p ++ l) = some l := by
  induction p with
  | nil => intro l; rfl
  | cons a as ih => intro l; simp [stripPfx, ih]

theorem takeWhile_append_all (p : Char → Bool) (l r : List Char)
    (h : ∀ a ∈ l, p a = true) : (l ++ r).takeWhile p = l ++ r.takeWhile p := by
  induction l with
  | nil => simp
  | cons x xs ih =>
    have hx : p x = true := h x (by simp)
    simp only [List.cons_append, List.takeWhile_cons, hx, if_true]
    rw [ih (fun a ha => h a (by simp [ha]))]

theorem dropWhile_append_all (p : Char → Bool) (l r : List Char)
    (h : ∀ a ∈ l, p a = true) : (l ++ r).dropWhile p = r.dropWhile p := by
  induction l with
  | nil => simp
  | cons x xs ih =>
    have hx : p x = true := h x (by simp)
    simp only [List.cons_append, List.dropWhile_cons, hx, if_true]
    exact ih (fun a ha => h a (by simp [ha]))

theorem dropWhile_length_le (p : Char → Bool) (l : List Char) :
    (l.dropWhile p).length ≤ l.length := by
  induction l with
  | nil => exact Nat.le_refl _
  | cons x xs ih =>
    rw [List.dropWhile_cons]
    split
    · exact Nat.le_trans ih (Nat.le_succ _)
    · exact Nat.le_refl _

theorem matchTail_url (h rest : List Char) (hne : h ≠ [])
    (hns : ∀ c ∈ h, (c != '/') = true) :
    matchTail (httpsChars ++ (h ++ (osImagesChars ++ rest))) = some rest := by
  have e1 : stripPfx httpsChars (httpsChars ++ (h ++ (osImagesChars ++ rest))) =
      some (h ++ (osImagesChars ++ rest)) := stripPfx_append_self _ _
  have eo : osImagesChars = '/' :: "os-images/".data := rfl
  have hsl : (('/' : Char) != '/') = false := by decide
  have e2 : (h ++ (osImagesChars ++ rest)).takeWhile (fun c => c != '/') = h := by
    rw [takeWhile_append_all _ h _ hns, eo]
    simp [List.takeWhile_cons, hsl]
  have e3 : (h ++ (osImagesChars ++ rest)).dropWhile (fun c => c != '/') =
      osImagesChars ++ rest := by
    rw [dropWhile_append_all _ h _ hns, eo]
    simp [List.dropWhile_cons, hsl]
  simp only [matchTail, e1, e2, e3, hne, if_false, stripPfx_append_self]

theorem matchTail_some_length (l rest : List Char) (h : matchTail l = some rest) :
    rest.length < l.length := by
  simp only [matchTail] at h
  split at h
  · exact absurd h (by simp)
  case _ r hr =>
    split at h
    · exact absurd h (by simp)
    case _ hhost =>
      split at h
      · exact absurd h (by simp)
      case _ rest2 hrest2 =>
        have h1 := stripPfx_length httpsChars l r hr
        have h2 := stripPfx_length osImagesChars _ rest2 hrest2
        have h3 := dropWhile_length_le (fun c => c != '/') r
        cases h
        have e1 : httpsChars.length = 8 := rfl
        have e2 : osImagesChars.length = 11 := rfl
        rw [e1] at h1
        rw [e2] at h2
        omega

theorem replaceAllGo_fuel (f1 : Nat) : ∀ (l : List Char) (f2 : Nat),
    l.length ≤ f1 → l.length ≤ f2 → replaceAllGo f1 l = replaceAllGo f2 l := by
  induction f1 with
  | zero =>
    intro l f2 h1 h2
    have hl : l = [] := List.eq_nil_of_length_eq_zero (Nat.le_zero.mp h1)
    subst hl
    simp [replaceAllGo]
  | succ f ih =>
    intro l f2 h1 h2
    cases l with
    | nil => simp [replaceAllGo]
    | cons c cs =>
      cases f2 with
      | zero => simp at h2
      | succ g =>
        simp only [replaceAllGo]
        cases hm : matchTail (c :: cs) with
        | some rest =>
          have hlen := matchTail_some_length _ _ hm
          simp only [List.length_cons] at h1 h2 hlen
          show fqdnRepl ++ replaceAllGo f rest = fqdnRepl ++ replaceAllGo g rest
          rw [ih rest g (by omega) (by omega)]
        | none =>
          simp only [List.length_cons] at h1 h2
          show c :: replaceAllGo f cs = c :: replaceAllGo g cs
          rw [ih cs g (by omega) (by omega)]

theorem replaceAllList_match (l rest : List Char) (h : matchTail l = some rest) :
    replaceAllList l = fqdnRepl ++ replaceAllList rest := by
  cases l with
  | nil =>
    have hq : matchTail ([] : List Char) = none := by decide
    rw [hq] at h
    exact absurd h (by simp)
  | cons c cs =>
    have hlen := matchTail_some_length _ _ h
    simp only [List.length_cons] at hlen
    simp only [replaceAllList, List.length_cons, replaceAllGo, h]
    congr 1
    exact replaceAllGo_fuel cs.length rest rest.length (by omega) (Nat.le_refl _)

theorem replaceAllList_nomatch (c : Char) (cs : List Char)
    (h : matchTail (c :: cs) = none) :
    replaceAllList (c :: cs) = c :: replaceAllList cs := by
  simp only [replaceAllList, List.length_cons, replaceAllGo, h]

theorem replaceAllList_append (s t : List Char)
    (h : ∀ n, n < s.length → matchTail (s.drop n ++ t) = none) :
    replaceAllList (s ++ t) = s ++ replaceAllList t := by
  induction s with
  | nil => simp
  | cons c cs ih =>
    have h0 : matchTail (c :: (cs ++ t)) = none := by
      have := h 0 (by simp)
      simpa using this
    rw [List.cons_append, replaceAllList_nomatch _ _ h0]
    rw [ih (fun n hn => by
      have := h (n + 1) (by simp; omega)
      simpa using this)]
    rfl

theorem noMatchFromB_sound (s t : List Char) (h : noMatchFromB s t = true) :
    ∀ n, n < s.length → matchTail (s.drop n ++ t) = none := by
  intro n hn
  simp only [noMatchFromB, List.all_eq_true, List.mem_range] at h
  exact Option.isNone_iff_eq_none.mp (h n hn)

theorem replaceAll_chunks (ps : List (String × String)) : ∀ (t : String),
    segsOkB ps t = true →
    replaceAllList (chunksBlob ps t).data = (chunksRepl ps t).data := by
  induction ps with
  | nil =>
    intro t h
    simp only [segsOkB] at h
    simp only [chunksBlob, chunksRepl]
    have hap := replaceAllList_append t.data [] (noMatchFromB_sound _ _ h)
    rw [List.append_nil] at hap
    rw [hap]
    simp [replaceAllList, replaceAllGo]
  | cons p rest ih =>
    obtain ⟨s, hst⟩ := p
    intro t h
    simp only [segsOkB, Bool.and_eq_true] at h
    obtain ⟨⟨⟨hnm, hne⟩, hall⟩, hrest⟩ := h
    have hne2 : hst.data ≠ [] := by
      intro hq
      rw [hq] at hne
      simp at hne
    have hall2 : ∀ c ∈ hst.data, (c != '/') = true := List.all_eq_true.mp hall
    have hdata : (chunksBlob ((s, hst) :: rest) t).data =
        s.data ++ (httpsChars ++ (hst.data ++ (osImagesChars ++ (chunksBlob rest t).data))) := by
      simp [chunksBlob, String.data_append, httpsChars, osImagesChars, List.append_assoc]
    rw [hdata]
    rw [replaceAllList_append _ _ (noMatchFromB_sound _ _ hnm)]
    rw [replaceAllList_match _ _ (matchTail_url hst.data _ hne2 hall2)]
    rw [ih t hrest]
    simp [chunksRepl, String.data_append, fqdnRepl, List.append_assoc]

theorem scanPillar_no_names (l : List RowDataStructure)
    (h : ∀ r ∈ l, r.ColumnName ≠ "category" ∧ r.ColumnName ≠ "pillar") :
    ∀ (i : Nat) (b : Bool) (pc : Nat), scanPillar l i b pc = some (b, pc) := by
  induction l with
  | nil => intro i b pc; rfl
  | cons x xs ih =>
    intro i b pc
    have hx := h x (by simp)
    simp only [scanPillar, hx.1, hx.2, if_false]
    exact ih (fun r hr => h r (by simp [hr])) (i + 1) b pc

theorem scanPillar_skip (l : List RowDataStructure)
    (h : ∀ r ∈ l, r.ColumnName ≠ "category" ∧ r.ColumnName ≠ "pillar") :
    ∀ (rest : List RowDataStructure) (i : Nat) (b : Bool) (pc : Nat),
    scanPillar (l ++ rest) i b pc = scanPillar rest (i + l.length) b pc := by
  induction l with
  | nil => intro rest i b pc; simp
  | cons x xs ih =>
    intro rest i b pc
    have hx := h x (by simp)
    simp only [List.cons_append, scanPillar, hx.1, hx.2, if_false, List.append_eq]
    rw [ih (fun r hr => h r (by simp [hr])) rest (i + 1) b pc]
    have harith : i + 1 + xs.length = i + (x :: xs).length := by
      simp only [List.length_cons]
      omega
    rw [harith]

theorem scanPillar_category (cat : RowDataStructure) (s : String)
    (hname : cat.ColumnName = "category") (hval : cat.Value = .vString s) :
    ∀ (rest : List RowDataStructure) (i : Nat) (b : Bool) (pc : Nat),
    scanPillar (cat :: rest) i b pc =
      scanPillar rest (i + 1) (if hasPfx s.data "Image".data then true else b) pc := by
  intro rest i b pc
  simp only [scanPillar, hname, hval, if_true]
  by_cases hp : hasPfx s.data "Image".data <;> simp [hp]

theorem scanPillar_pillar (pil : RowDataStructure) (hname : pil.ColumnName = "pillar") :
    ∀ (rest : List RowDataStructure) (i : Nat) (b : Bool) (pc : Nat),
    scanPillar (pil :: rest) i b pc = scanPillar rest (i + 1) b i := by
  intro rest i b pc
  have hnc : pil.ColumnName ≠ "category" := by
    rw [hname]
    decide
  simp [scanPillar, hnc, hname]

theorem getElem?_append_cons {α : Type} (l1 : List α) (x : α) (l2 : List α) :
    (l1 ++ x :: l2)[l1.length]? = some x := by
  induction l1 with
  | nil => simp
  | cons y ys ih => simpa using ih

theorem set_append_cons {α : Type} (l1 : List α) (x y : α) (l2 : List α) :
    (l1 ++ x :: l2).set l1.length y = l1 ++ y :: l2 := by
  induction l1 with
  | nil => rfl
  | cons z zs ih => simp [ih]

theorem salt_scan_true (value : List RowDataStructure) (tb : Table) (pc : Nat)
    (col : RowDataStructure) (b : String)
    (hscan : scanPillar value 0 false 0 = some (true, pc))
    (hget : value[pc]? = some col)
    (hv : col.Value = .vBytes b) :
    susesaltpillarRowMod value tb =
      some (value.set pc { col with Value := .vBytes (replaceAllOsImages b) }) := by
  unfold susesaltpillarRowMod
  simp [hscan, hget, hv]

theorem salt_scan_false (value : List RowDataStructure) (tb : Table) (pc : Nat)
    (hscan : scanPillar value 0 false 0 = some (false, pc)) :
    susesaltpillarRowMod value tb = some value := by
  unfold susesaltpillarRowMod
  simp [hscan]

/-- C4: the `susesaltpillar` callback, on a row holding one `category` column
(text value `s`) and one `pillar` column (binary value decomposed by
`chunksBlob`), in either relative order and with arbitrary other columns
around them: when `s` starts with `Image` it returns the row with every
pattern occurrence in the pillar blob replaced by the placeholder URL and
every other character and column unchanged; when `s` does not start with
`Image` it returns the row completely unchanged. -/
theorem c4_salt_pillar_rewrite
    (l1 l2 l3 : List RowDataStructure) (cat pil : RowDataStructure) (s : String)
    (ps : List (String × String)) (t : String) (tb : Table)
    (hl1 : ∀ r ∈ l1, r.ColumnName ≠ "category" ∧ r.ColumnName ≠ "pillar")
    (hl2 : ∀ r ∈ l2, r.ColumnName ≠ "category" ∧ r.ColumnName ≠ "pillar")
    (hl3 : ∀ r ∈ l3, r.ColumnName ≠ "category" ∧ r.ColumnName ≠ "pillar")
    (hcat : cat.ColumnName = "category") (hcatv : cat.Value = .vString s)
    (hpil : pil.ColumnName = "pillar") (hpilv : pil.Value = .vBytes (chunksBlob ps t))
    (hsegs : segsOkB ps t = true) :
    (hasPfx s.data "Image".data = true →
      susesaltpillarRowMod (l1 ++ (cat :: (l2 ++ (pil :: l3)))) tb =
        some (l1 ++ (cat :: (l2 ++ ({ pil with Value := .vBytes (chunksRepl ps t) } :: l3)))) ∧
      susesaltpillarRowMod (l1 ++ (pil :: (l2 ++ (cat :: l3)))) tb =
        some (l1 ++ ({ pil with Value := .vBytes (chunksRepl ps t) } :: (l2 ++ (cat :: l3))))) ∧
    (hasPfx s.data "Image".data = false →
      susesaltpillarRowMod (l1 ++ (cat :: (l2 ++ (pil :: l3)))) tb =
        some (l1 ++ (cat :: (l2 ++ (pil :: l3)))) ∧
      susesaltpillarRowMod (l1 ++ (pil :: (l2 ++ (cat :: l3)))) tb =
        some (l1 ++ (pil :: (l2 ++ (cat :: l3))))) := by
  have hrepl : replaceAllOsImages (chunksBlob ps t) = chunksRepl ps t := by
    show (⟨replaceAllList (chunksBlob ps t).data⟩ : String) = chunksRepl ps t
    rw [replaceAll_chunks ps t hsegs]
  have hsplit : l1 ++ (cat :: (l2 ++ (pil :: l3))) = (l1 ++ (cat :: l2)) ++ (pil :: l3) := by
    simp
  constructor
  · intro hp
    constructor
    · have hscan : scanPillar (l1 ++ (cat :: (l2 ++ (pil :: l3)))) 0 false 0 =
          some (true, (l1 ++ (cat :: l2)).length) := by
        rw [scanPillar_skip l1 hl1, scanPillar_category cat s hcat hcatv,
          scanPillar_skip l2 hl2, scanPillar_pillar pil hpil,
          scanPillar_no_names l3 hl3]
        simp only [hp, if_true, List.length_append, List.length_cons,
          Option.some.injEq, Prod.mk.injEq, true_and]
        omega
      have hget : (l1 ++ (cat :: (l2 ++ (pil :: l3))))[(l1 ++ (cat :: l2)).length]? =
          some pil := by
        rw [hsplit]
        exact getElem?_append_cons _ _ _
      have hset : (l1 ++ (cat :: (l2 ++ (pil :: l3)))).set (l1 ++ (cat :: l2)).length
          { pil with Value := .vBytes (chunksRepl ps t) } =
          l1 ++ (cat :: (l2 ++ ({ pil with Value := .vBytes (chunksRepl ps t) } :: l3))) := by
        rw [hsplit, set_append_cons]
        simp
      rw [salt_scan_true _ tb _ pil (chunksBlob ps t) hscan hget hpilv, hrepl, hset]
    · have hscan : scanPillar (l1 ++ (pil :: (l2 ++ (cat :: l3)))) 0 false 0 =
          some (true, l1.length) := by
        rw [scanPillar_skip l1 hl1, scanPillar_pillar pil hpil,
          scanPillar_skip l2 hl2, scanPillar_category cat s hcat hcatv,
          scanPillar_no_names l3 hl3]
        simp [hp]
      have hget : (l1 ++ (pil :: (l2 ++ (cat :: l3))))[l1.length]? = some pil :=
        getElem?_append_cons _ _ _
      have hset : (l1 ++ (pil :: (l2 ++ (cat :: l3)))).set l1.length
          { pil with Value := .vBytes (chunksRepl ps t) } =
          l1 ++ ({ pil with Value := .vBytes (chunksRepl ps t) } :: (l2 ++ (cat :: l3))) :=
        set_append_cons _ _ _ _
      rw [salt_scan_true _ tb _ pil (chunksBlob ps t) hscan hget hpilv, hrepl, hset]
  · intro hp
    constructor
    · have hscan : scanPillar (l1 ++ (cat :: (l2 ++ (pil :: l3)))) 0 false 0 =
          some (false, (l1 ++ (cat :: l2)).length) := by
        rw [scanPillar_skip l1 hl1, scanPillar_category cat s hcat hcatv,
          scanPillar_skip l2 hl2, scanPillar_pillar pil hpil,
          scanPillar_no_names l3 hl3]
        simp only [hp, if_false, Option.some.injEq, Prod.mk.injEq]
        refine ⟨rfl, ?_⟩
        simp only [List.length_append, List.length_cons]
        omega
      exact salt_scan_false _ tb _ hscan
    · have hscan : scanPillar (l1 ++ (pil :: (l2 ++ (cat :: l3)))) 0 false 0 =
          some (false, l1.length) := by
        rw [scanPillar_skip l1 hl1, scanPillar_pillar pil hpil,
          scanPillar_skip l2 hl2, scanPillar_category cat s hcat hcatv,
          scanPillar_no_names l3 hl3]
        simp [hp]
      exact salt_scan_false _ tb _ hscan

/-- Witness for C4 at a concrete three-column row (both orders) whose pillar
blob holds two pattern occurrences with different hosts. -/
theorem c4_witness :
    susesaltpillarRowMod
        [⟨"category", .vString "Image-x", .vNull⟩,
         ⟨"server_id", .vInt 1, .vNull⟩,
         ⟨"pillar", .vBytes (chunksBlob [("a ", "old-host.example"), (" b ", "h2")] " c"),
           .vNull⟩] table0 =
      some
        [⟨"category", .vString "Image-x", .vNull⟩,
         ⟨"server_id", .vInt 1, .vNull⟩,
         ⟨"pillar", .vBytes (chunksRepl [("a ", "old-host.example"), (" b ", "h2")] " c"),
           .vNull⟩] ∧
    susesaltpillarRowMod
        [⟨"pillar", .vBytes (chunksBlob [("a ", "old-host.example"), (" b ", "h2")] " c"),
           .vNull⟩,
         ⟨"server_id", .vInt 1, .vNull⟩,
         ⟨"category", .vString "Image-x", .vNull⟩] table0 =
      some
        [⟨"pillar", .vBytes (chunksRepl [("a ", "old-host.example"), (" b ", "h2")] " c"),
           .vNull⟩,
         ⟨"server_id", .vInt 1, .vNull⟩,
         ⟨"category", .vString "Image-x", .vNull⟩] :=
  (c4_salt_pillar_rewrite []
      [⟨"server_id", .vInt 1, .vNull⟩] []
      ⟨"category", .vString "Image-x", .vNull⟩
      ⟨"pillar", .vBytes (chunksBlob [("a ", "old-host.example"), (" b ", "h2")] " c"), .vNull⟩
      "Image-x" [("a ", "old-host.example"), (" b ", "h2")] " c" table0
      (by decide) (by decide) (by decide) rfl rfl rfl rfl (by decide)).1 (by decide)

end SchemaReader
